import Mathlib

/-!
Shallow embedding of the TimePick widget (src/time-pick.js, first class
revision, together with the legacy revision src/unnamed/part_000 where the
two differ).  The stateful instance is modelled as a record, DOM-held bits
(the "active" class on the toggle icon, the "invalid" class on the input)
are carried as explicit boolean fields, and every constructor-installed
click handler becomes a state-transition function.  JavaScript integer
arithmetic on these small values is exact, so Int models it directly; the
two JS operations whose rounding differs from Lean defaults are modelled
explicitly below (jsRem, jsFloorDiv).
-/

namespace TimePick

/-- ECMAScript remainder `n % m`: truncated remainder, sign follows the
dividend (for the positive moduli 24 and 60 used by the widget).  For a
nonnegative dividend it agrees with Lean Euclidean `%`; for a negative
dividend it is the negated remainder of the negated dividend. -/
def jsRem (n m : Int) : Int :=
  if 0 ≤ n then n % m else -((-n) % m)

/-- `Math.floor(n / m)` for a positive integer divisor `m`: real division
followed by floor is exactly floor division `Int.fdiv`. -/
def jsFloorDiv (n m : Int) : Int :=
  Int.fdiv n m

/-- The per-instance state of one picker (src/time-pick.js lines 89-94
plus the DOM bits the instance reads back).  `btnActiveClass` is whether
the toggle icon currently carries the class "active" (DOM state);
`buttonActive` is the instance field refreshed from it by
`handleTimeUpdate`; `invalidClass` is whether the bound input carries the
class "invalid" (written by `setValid`). -/
structure PickerState where
  id : String
  hour : Int
  minute : Int
  totalMinutes : Int
  btnActiveClass : Bool
  buttonActive : Bool
  invalidClass : Bool
deriving DecidableEq, Repr

/-- `handleTimeUpdate` (src/time-pick.js lines 226-238), restricted to the
instance-state effects: recompute `totalMinutes = hour*60 + minute` and
refresh `buttonActive` from the toggle icon class.  (It also rewrites the
two labels and the input text and fires the change event; the text written
is derived from `hour`/`minute`, and notification is modelled separately
by the event-handler functions below.) -/
def handleTimeUpdate (st : PickerState) : PickerState :=
  { st with totalMinutes := st.hour * 60 + st.minute,
            buttonActive := st.btnActiveClass }

/-- Adjust-button handler, case type="hour" action="up"
(src/time-pick.js lines 120-123): `hour = (hour + 1) % 24`. -/
def stepHourUp (st : PickerState) : PickerState :=
  handleTimeUpdate { st with hour := jsRem (st.hour + 1) 24 }

/-- Adjust-button handler, case type="hour" action="down"
(src/time-pick.js lines 124-127): `hour = (hour - 1 + 24) % 24`. -/
def stepHourDown (st : PickerState) : PickerState :=
  handleTimeUpdate { st with hour := jsRem (st.hour - 1 + 24) 24 }

/-- Adjust-button handler, case type="minute" action="up"
(src/time-pick.js lines 128-135): `minute = minute + step`; if the result
is ≥ 60 then `minute = 0` and `hour = (hour + 1) % 24`. -/
def stepMinuteUp (step : Int) (st : PickerState) : PickerState :=
  let m := st.minute + step
  if 60 ≤ m then
    handleTimeUpdate { st with minute := 0, hour := jsRem (st.hour + 1) 24 }
  else
    handleTimeUpdate { st with minute := m }

/-- Adjust-button handler, case type="minute" action="down"
(src/time-pick.js lines 136-143): `minute = minute - step`; if the result
is < 0 then `minute = 60 - step` and `hour = (hour - 1 + 24) % 24`. -/
def stepMinuteDown (step : Int) (st : PickerState) : PickerState :=
  let m := st.minute - step
  if m < 0 then
    handleTimeUpdate { st with minute := 60 - step, hour := jsRem (st.hour - 1 + 24) 24 }
  else
    handleTimeUpdate { st with minute := m }

/-- Toggle-icon click handler (src/time-pick.js lines 105-112): toggles the
"active" class on the icon, flips the popup display, then runs
`handleTimeUpdate` (hour and minute are untouched). -/
def togglePopup (st : PickerState) : PickerState :=
  handleTimeUpdate { st with btnActiveClass := !st.btnActiveClass }

/-- `setValue` (src/time-pick.js lines 250-254):
`hour = Math.floor(totalMinutes / 60)`, `minute = totalMinutes % 60`,
then `handleTimeUpdate`. -/
def setValue (totalMinutes : Int) (st : PickerState) : PickerState :=
  handleTimeUpdate { st with hour := jsFloorDiv totalMinutes 60,
                             minute := jsRem totalMinutes 60 }

/-- `setValid` (src/time-pick.js lines 256-263): if the input element and
the external confirm control (looked up by the fixed identifier
"adProgramm") both exist, toggle the class "invalid" on the input to
`!isValid`; otherwise return without any effect.  The existence of the
external control is a DOM fact, passed here as `buttonExists`. -/
def setValid (buttonExists : Bool) (isValid : Bool) (st : PickerState) : PickerState :=
  if buttonExists then { st with invalidClass := !isValid } else st

/-- The object returned by `getValue` (src/time-pick.js lines 240-248). -/
structure Snapshot where
  hour : Int
  minute : Int
  totalMinutes : Int
  buttonActive : Bool
  instanceId : String
deriving DecidableEq, Repr

/-- `getValue` (src/time-pick.js lines 240-248): a field-for-field snapshot
of the instance state, no side effects. -/
def getValue (st : PickerState) : Snapshot :=
  { hour := st.hour, minute := st.minute, totalMinutes := st.totalMinutes,
    buttonActive := st.buttonActive, instanceId := st.id }

/-- The documented well-formedness of a picker state (spec section 3
invariants): hour in [0,23] and minute in [0,59]. -/
abbrev timeInvariant (st : PickerState) : Prop :=
  0 ≤ st.hour ∧ st.hour ≤ 23 ∧ 0 ≤ st.minute ∧ st.minute ≤ 59

/-- The options object a caller may pass to the constructor; each field may
be absent, matching a JS object that may or may not carry the key. -/
structure Options where
  step : Option Int := none
  placeholder : Option String := none
deriving DecidableEq, Repr

/-- The merged configuration. -/
structure Config where
  step : Int
  placeholder : String
deriving DecidableEq, Repr

/-- The config merge (src/time-pick.js line 82):
`this.config = { ...TimePick.DEFAULT_OPTIONS, ...options }` with
`DEFAULT_OPTIONS = { step: 30, placeholder: "00:00" }`.  Object spread
semantics: a key present in `options` overrides the default, an absent key
leaves the default.  No validation of any kind is performed. -/
def mergeConfig (options : Options) : Config :=
  { step := options.step.getD 30,
    placeholder := options.placeholder.getD "00:00" }

/-- The event-handler table of one instance (src/time-pick.js lines 83-87):
`{ change: [], dismiss: [], show: [] }`.  Callbacks are modelled abstractly
by an arbitrary type `κ`.  The third field is named `showHandlers` because
`show` is a Lean keyword; it models the source key "show". -/
structure EventHandlers (κ : Type) where
  change : List κ
  dismiss : List κ
  showHandlers : List κ
deriving DecidableEq, Repr

/-- The handler table at construction: all three lists empty. -/
def emptyHandlers (κ : Type) : EventHandlers κ :=
  { change := [], dismiss := [], showHandlers := [] }

/-- `on(event, callback)` (src/time-pick.js lines 159-163): if the table
has the event key, push the callback onto that list; an unknown event name
is ignored.  (Named `onEvent` because `on` is reserved notation in Lean.) -/
def onEvent {κ : Type} (h : EventHandlers κ) (event : String) (callback : κ) : EventHandlers κ :=
  if event = "change" then { h with change := h.change ++ [callback] }
  else if event = "dismiss" then { h with dismiss := h.dismiss ++ [callback] }
  else if event = "show" then { h with showHandlers := h.showHandlers ++ [callback] }
  else h

/-- `triggerEvent(event)` (src/time-pick.js lines 165-169): invoke every
callback registered for the event, in list (= registration) order.  The
invocation of a callback is modelled by `invoke`; the returned list records
the invocations in the order they happen. -/
def triggerEvent {κ α : Type} (h : EventHandlers κ) (event : String) (invoke : κ → α) : List α :=
  if event = "change" then h.change.map invoke
  else if event = "dismiss" then h.dismiss.map invoke
  else if event = "show" then h.showHandlers.map invoke
  else []

/-- Legacy revision `api.onChange` (src/unnamed/part_000 lines 246-249):
`instanceCallback = callback` — the single stored callback is overwritten,
not appended. -/
def onChange {κ : Type} (_instanceCallback : Option κ) (callback : κ) : Option κ :=
  some callback

/-- Legacy revision notification (src/unnamed/part_000 lines 231-241): at
the end of `handleTimeUpdate`, if `instanceCallback` is set, it is called
once; otherwise nothing is called. -/
def notifyLegacy {κ α : Type} (instanceCallback : Option κ) (invoke : κ → α) : List α :=
  match instanceCallback with
  | some cb => [invoke cb]
  | none => []

/-- `String.prototype.split(":")` for the one-character separator used by
the source (src/time-pick.js line 150): cut the character list at every
colon; adjacent or leading/trailing colons produce empty pieces, and the
empty string splits to `[""]`, as in ECMAScript. -/
def splitColonAux : List Char → List Char → List String
  | [], acc => [String.mk acc.reverse]
  | c :: cs, acc =>
    if c = ':' then String.mk acc.reverse :: splitColonAux cs []
    else splitColonAux cs (c :: acc)

/-- See `splitColonAux`. -/
def jsSplitColon (s : String) : List String :=
  splitColonAux s.toList []

/-- ECMAScript `Number(s)` on the string forms this widget meets, with
`none` standing for NaN: the empty string converts to 0, a nonempty string
of decimal digits to its value, and any other string (non-numeric text) to
NaN.  (Signed, fractional, and whitespace-padded numerals do not occur in
the claims under verification.) -/
def digitsVal : List Char → Nat → Option Nat
  | [], acc => some acc
  | c :: cs, acc =>
    if c.isDigit then digitsVal cs (acc * 10 + (c.toNat - 48)) else none

/-- See `digitsVal`. -/
def jsNumber (s : String) : Option Int :=
  match s.toList with
  | [] => some 0
  | cs => (digitsVal cs 0).map Int.ofNat

/-- Outcome of the value-initialization step at the end of the constructor.
`hour`/`minute` are `Option Int` with `none` standing for the two
non-number results JS destructuring can produce there (NaN from `Number`,
or `undefined` from a missing array slot); `placeholderWritten` records
whether the branch ran that writes `config.placeholder` into the element
value attribute. -/
structure InitResult where
  hour : Option Int
  minute : Option Int
  placeholderWritten : Bool
deriving DecidableEq, Repr

/-- Constructor value initialization (src/time-pick.js lines 148-156):
`if (this.inputElement.value)` — string truthiness, i.e. nonempty — then
`let [hour, minute] = value.split(":").map(Number)` and the two fields are
assigned from the destructuring; otherwise the element value attribute is
set to `config.placeholder` and the state stays at its constructed 0:00. -/
def initFromValue (value : String) : InitResult :=
  if value = "" then
    { hour := some 0, minute := some 0, placeholderWritten := true }
  else
    let parts := jsSplitColon value
    { hour := (parts.get? 0).bind jsNumber,
      minute := (parts.get? 1).bind jsNumber,
      placeholderWritten := false }

/-- A PickerGroup (src/time-pick.js lines 61-79): the `instances` Map from
element identifier to picker instance, in DOM match (insertion) order. -/
abbrev Group := List (String × PickerState)

/-- `Map.prototype.get`: the value of the first (in a well-formed group,
the only) entry with the given key, or `none` (JS `undefined`) when there
is no such entry. -/
def mapGet (g : Group) (id : String) : Option PickerState :=
  match g with
  | [] => none
  | (k, v) :: rest => if k = id then some v else mapGet rest id

/-- Group forwarding `getValue: (id) => instances.get(id)?.getValue()`
(src/time-pick.js line 76): optional chaining turns an unknown identifier
into `undefined` (`none`) instead of an error. -/
def groupGetValue (g : Group) (id : String) : Option Snapshot :=
  (mapGet g id).map getValue

/-- The functional rendering of `instances.get(id)` followed by an
in-place mutation of the found instance by `f`: the entry keyed `id` is
replaced by its updated state, every other entry is untouched, and when no
entry has that key the group is unchanged (the optional chaining no-op). -/
def updateEntry (g : Group) (id : String) (f : PickerState → PickerState) : Group :=
  match g with
  | [] => []
  | (k, v) :: rest =>
    if k = id then (k, f v) :: updateEntry rest id f
    else (k, v) :: updateEntry rest id f

/-- Group forwarding
`setValue: (id, totalMinutes) => instances.get(id)?.setValue(totalMinutes)`
(src/time-pick.js line 77), rendered through `updateEntry`. -/
def groupSetValue (g : Group) (id : String) (totalMinutes : Int) : Group :=
  updateEntry g id (setValue totalMinutes)

/-- Group forwarding
`setValid: (id, isValid) => instances.get(id)?.setValid(isValid)`
(src/time-pick.js line 78), rendered through `updateEntry`. -/
def groupSetValid (g : Group) (id : String) (buttonExists isValid : Bool) : Group :=
  updateEntry g id (setValid buttonExists isValid)

/-- A concrete picker state used by witnesses and counterexamples. -/
def sample : PickerState :=
  { id := "p", hour := 0, minute := 0, totalMinutes := 0,
    btnActiveClass := false, buttonActive := false, invalidClass := false }

/-- C1: the claim predicts that with step 30 the minute field goes from 45
up to (45+30) mod 60 = 15 and from 10 down to 40; the code instead resets
an overflowing minute to 0 and an underflowing minute to 60 - step = 30. -/
theorem minute_carry_claim_counterexample :
    (stepMinuteUp 30 { sample with minute := 45, totalMinutes := 45 }).minute = 0 ∧
    (0 : Int) ≠ (45 + 30) % 60 ∧
    (stepMinuteDown 30 { sample with minute := 10, totalMinutes := 10 }).minute = 30 ∧
    (30 : Int) ≠ 40 := by
  decide

/-- C1 (amended): for a picker state satisfying the documented invariant
and a step in [1,60], stepping minute up when minute + step ≥ 60 sets
minute to 0 (not to (minute+step) mod 60) and increments hour modulo 24,
and stepping minute down when minute - step < 0 sets minute to 60 - step
(not to the mod-60 value) and decrements hour modulo 24. -/
theorem minute_carry_borrow_amended (st : PickerState) (s : Int)
    (hinv : timeInvariant st) (_hs1 : 1 ≤ s) (_hs2 : s ≤ 60) :
    (60 ≤ st.minute + s →
      (stepMinuteUp s st).minute = 0 ∧
      (stepMinuteUp s st).hour = (st.hour + 1) % 24) ∧
    (st.minute - s < 0 →
      (stepMinuteDown s st).minute = 60 - s ∧
      (stepMinuteDown s st).hour = (st.hour - 1 + 24) % 24) := by
  obtain ⟨h1, h2, h3, h4⟩ := hinv
  refine ⟨fun h => ?_, fun h => ?_⟩
  · have hb : (0:Int) ≤ st.hour + 1 := by omega
    simp [stepMinuteUp, handleTimeUpdate, jsRem, h, hb]
  · have hb : (0:Int) ≤ st.hour - 1 + 24 := by omega
    simp [stepMinuteDown, handleTimeUpdate, jsRem, h, hb]

/-- C1 (amended) witness: step 30 up from 14:45 gives 15:00, step 30 down
from 00:10 gives 23:30. -/
theorem minute_carry_borrow_amended_witness :
    (stepMinuteUp 30 { sample with hour := 14, minute := 45, totalMinutes := 885 }).minute = 0 ∧
    (stepMinuteUp 30 { sample with hour := 14, minute := 45, totalMinutes := 885 }).hour = 15 ∧
    (stepMinuteDown 30 { sample with minute := 10, totalMinutes := 10 }).minute = 30 ∧
    (stepMinuteDown 30 { sample with minute := 10, totalMinutes := 10 }).hour = 23 := by
  have hu := minute_carry_borrow_amended
    { sample with hour := 14, minute := 45, totalMinutes := 885 } 30
    (by constructor <;> simp [sample]) (by decide) (by decide)
  have hd := minute_carry_borrow_amended
    { sample with minute := 10, totalMinutes := 10 } 30
    (by constructor <;> simp [sample]) (by decide) (by decide)
  obtain ⟨hu1, hu2⟩ := hu.1 (by decide)
  obtain ⟨hd1, hd2⟩ := hd.2 (by decide)
  refine ⟨hu1, ?_, hd1, ?_⟩
  · rw [hu2]; decide
  · rw [hd2]; decide

/-- C2: the claim asserts 0 ≤ hour ≤ 23 and 0 ≤ minute ≤ 59 after any
transition, including setValue with any integer argument; setValue 1440
produces hour 24. -/
theorem invariant_claim_counterexample :
    ¬ timeInvariant (setValue 1440 sample) := by
  decide

/-- C2 (amended): the bounds 0 ≤ hour ≤ 23 and 0 ≤ minute ≤ 59 are
preserved by every step transition (with configured step in [1,60]) and by
toggling the popup, and they hold after setValue n whenever
0 ≤ n ≤ 1439; setValue with an out-of-range integer can violate them. -/
theorem invariant_amended (st : PickerState) (s : Int)
    (hinv : timeInvariant st) (hs1 : 1 ≤ s) (hs2 : s ≤ 60) :
    timeInvariant (stepHourUp st) ∧
    timeInvariant (stepHourDown st) ∧
    timeInvariant (stepMinuteUp s st) ∧
    timeInvariant (stepMinuteDown s st) ∧
    timeInvariant (togglePopup st) ∧
    (∀ n : Int, 0 ≤ n → n ≤ 1439 → timeInvariant (setValue n st)) := by
  obtain ⟨h1, h2, h3, h4⟩ := hinv
  refine ⟨?_, ?_, ?_, ?_, ?_, ?_⟩
  · simp only [stepHourUp, handleTimeUpdate, jsRem]
    split_ifs <;> refine ⟨?_, ?_, ?_, ?_⟩ <;>
      first
      | omega
      | (dsimp only; omega)
  · simp only [stepHourDown, handleTimeUpdate, jsRem]
    split_ifs <;> refine ⟨?_, ?_, ?_, ?_⟩ <;>
      first
      | omega
      | (dsimp only; omega)
  · simp only [stepMinuteUp, handleTimeUpdate, jsRem]
    split_ifs <;> refine ⟨?_, ?_, ?_, ?_⟩ <;>
      first
      | omega
      | (dsimp only; omega)
  · simp only [stepMinuteDown, handleTimeUpdate, jsRem]
    split_ifs <;> refine ⟨?_, ?_, ?_, ?_⟩ <;>
      first
      | omega
      | (dsimp only; omega)
  · exact ⟨h1, h2, h3, h4⟩
  · intro n hn0 hn1
    simp only [setValue, handleTimeUpdate, jsFloorDiv, jsRem]
    rw [Int.fdiv_eq_ediv n (by norm_num : (0:Int) ≤ 60), if_pos hn0]
    refine ⟨?_, ?_, ?_, ?_⟩ <;>
      first
      | omega
      | (dsimp only; omega)

/-- C2 (amended) witness at the sample state with step 30 and
setValue 870. -/
theorem invariant_amended_witness :
    timeInvariant (stepHourUp sample) ∧
    timeInvariant (stepHourDown sample) ∧
    timeInvariant (stepMinuteUp 30 sample) ∧
    timeInvariant (stepMinuteDown 30 sample) ∧
    timeInvariant (togglePopup sample) ∧
    timeInvariant (setValue 870 sample) := by
  have h := invariant_amended sample 30 (by decide) (by decide) (by decide)
  exact ⟨h.1, h.2.1, h.2.2.1, h.2.2.2.1, h.2.2.2.2.1,
    h.2.2.2.2.2 870 (by decide) (by decide)⟩

/-- C3: for a picker state satisfying the documented invariant and a step
in [1,60], stepping minute up adds step to minute and, on overflow (≥ 60),
sets minute to 0 and hour to (hour+1) mod 24; stepping minute down
subtracts step and, on underflow (< 0), sets minute to 60 - step and hour
to (hour-1+24) mod 24; in the non-overflow and non-underflow cases hour is
unchanged. -/
theorem step_minute_transition (st : PickerState) (s : Int)
    (hinv : timeInvariant st) (_hs1 : 1 ≤ s) (_hs2 : s ≤ 60) :
    (60 ≤ st.minute + s →
      (stepMinuteUp s st).minute = 0 ∧
      (stepMinuteUp s st).hour = (st.hour + 1) % 24) ∧
    (st.minute + s < 60 →
      (stepMinuteUp s st).minute = st.minute + s ∧
      (stepMinuteUp s st).hour = st.hour) ∧
    (st.minute - s < 0 →
      (stepMinuteDown s st).minute = 60 - s ∧
      (stepMinuteDown s st).hour = (st.hour - 1 + 24) % 24) ∧
    (0 ≤ st.minute - s →
      (stepMinuteDown s st).minute = st.minute - s ∧
      (stepMinuteDown s st).hour = st.hour) := by
  obtain ⟨h1, h2, h3, h4⟩ := hinv
  refine ⟨fun h => ?_, fun h => ?_, fun h => ?_, fun h => ?_⟩
  · have hb : (0:Int) ≤ st.hour + 1 := by omega
    simp [stepMinuteUp, handleTimeUpdate, jsRem, h, hb]
  · have hlt : ¬ (60 ≤ st.minute + s) := by omega
    simp [stepMinuteUp, handleTimeUpdate, jsRem, hlt]
  · have hb : (0:Int) ≤ st.hour - 1 + 24 := by omega
    simp [stepMinuteDown, handleTimeUpdate, jsRem, h, hb]
  · have hge : ¬ (st.minute - s < 0) := by omega
    simp [stepMinuteDown, handleTimeUpdate, jsRem, hge]

/-- C3 witness: step 15 at 10:50 overflows up to 11:00 and steps down to
10:35; step 15 at 00:05 underflows down to 23:45. -/
theorem step_minute_transition_witness :
    (stepMinuteUp 15 { sample with hour := 10, minute := 50, totalMinutes := 650 }).minute = 0 ∧
    (stepMinuteUp 15 { sample with hour := 10, minute := 50, totalMinutes := 650 }).hour = 11 ∧
    (stepMinuteDown 15 { sample with hour := 10, minute := 50, totalMinutes := 650 }).minute = 35 ∧
    (stepMinuteDown 15 { sample with hour := 10, minute := 50, totalMinutes := 650 }).hour = 10 ∧
    (stepMinuteDown 15 { sample with minute := 5, totalMinutes := 5 }).minute = 45 ∧
    (stepMinuteDown 15 { sample with minute := 5, totalMinutes := 5 }).hour = 23 := by
  have ha := step_minute_transition
    { sample with hour := 10, minute := 50, totalMinutes := 650 } 15
    (by constructor <;> simp [sample]) (by decide) (by decide)
  have hb := step_minute_transition
    { sample with minute := 5, totalMinutes := 5 } 15
    (by constructor <;> simp [sample]) (by decide) (by decide)
  obtain ⟨ha1, ha2⟩ := ha.1 (by decide)
  obtain ⟨ha3, ha4⟩ := ha.2.2.2 (by decide)
  obtain ⟨hb1, hb2⟩ := hb.2.2.1 (by decide)
  refine ⟨ha1, ?_, ?_, ha4, ?_, ?_⟩
  · rw [ha2]; decide
  · rw [ha3]; decide
  · rw [hb1]; decide
  · rw [hb2]; decide

/-- C4: for hour in [0,23] (the documented invariant), stepping the hour
field up yields (hour+1) mod 24 and stepping it down yields
(hour-1+24) mod 24, with minute unchanged in both cases. -/
theorem step_hour_transition (st : PickerState) (hinv : timeInvariant st) :
    (stepHourUp st).hour = (st.hour + 1) % 24 ∧
    (stepHourUp st).minute = st.minute ∧
    (stepHourDown st).hour = (st.hour - 1 + 24) % 24 ∧
    (stepHourDown st).minute = st.minute := by
  obtain ⟨h1, h2, h3, h4⟩ := hinv
  have hu : (0:Int) ≤ st.hour + 1 := by omega
  have hd : (0:Int) ≤ st.hour - 1 + 24 := by omega
  refine ⟨?_, ?_, ?_, ?_⟩ <;> simp [stepHourUp, stepHourDown, handleTimeUpdate, jsRem, hu, hd]

/-- C4 witness: from 23:30, hour up wraps to 0 and hour down gives 22,
minute staying 30. -/
theorem step_hour_transition_witness :
    (stepHourUp { sample with hour := 23, minute := 30, totalMinutes := 1410 }).hour = 0 ∧
    (stepHourUp { sample with hour := 23, minute := 30, totalMinutes := 1410 }).minute = 30 ∧
    (stepHourDown { sample with hour := 23, minute := 30, totalMinutes := 1410 }).hour = 22 ∧
    (stepHourDown { sample with hour := 23, minute := 30, totalMinutes := 1410 }).minute = 30 := by
  have h := step_hour_transition
    { sample with hour := 23, minute := 30, totalMinutes := 1410 }
    (by constructor <;> simp [sample])
  obtain ⟨e1, e2, e3, e4⟩ := h
  refine ⟨?_, e2, ?_, e4⟩
  · rw [e1]; decide
  · rw [e3]; decide

/-- C5: for every integer n in [0,1439], setValue n sets hour to
floor(n/60) and minute to n mod 60, and a subsequent getValue returns
exactly those values with totalMinutes = n. -/
theorem setValue_getValue_round_trip (st : PickerState) (n : Int)
    (h0 : 0 ≤ n) (_h1 : n ≤ 1439) :
    (getValue (setValue n st)).hour = n / 60 ∧
    (getValue (setValue n st)).minute = n % 60 ∧
    (getValue (setValue n st)).totalMinutes = n := by
  simp only [getValue, setValue, handleTimeUpdate, jsFloorDiv, jsRem]
  rw [Int.fdiv_eq_ediv n (by norm_num : (0:Int) ≤ 60), if_pos h0]
  refine ⟨?_, ?_, ?_⟩ <;> omega

/-- C5 witness: after setValue 870 the snapshot reads hour 14, minute 30,
totalMinutes 870. -/
theorem setValue_getValue_round_trip_witness :
    (getValue (setValue 870 sample)).hour = 14 ∧
    (getValue (setValue 870 sample)).minute = 30 ∧
    (getValue (setValue 870 sample)).totalMinutes = 870 := by
  have h := setValue_getValue_round_trip sample 870 (by decide) (by decide)
  obtain ⟨e1, e2, e3⟩ := h
  refine ⟨?_, ?_, e3⟩
  · rw [e1]; decide
  · rw [e2]; decide

/-- C6: the claim predicts that an invalid step (here 0, outside [1,60])
is replaced with the default 30 at construction; the config merge keeps it
as 0.  (The code also has no warning mechanism of any kind at this point:
the merge on src/time-pick.js line 82 is the whole config handling.) -/
theorem config_step_validation_counterexample :
    (mergeConfig { step := some 0, placeholder := none }).step = 0 ∧
    (0 : Int) ≠ 30 := by
  decide

/-- C6 (amended): the config merge performs no validation: a provided step
is kept verbatim, valid or not, with no warning (the code has no warning
channel); the default 30 is used only when the options carry no step at
all.  The merge is a total function, so construction indeed never fails on
account of a bad config. -/
theorem config_merge_amended (s : Int) (p : String) :
    (mergeConfig { step := some s, placeholder := some p }).step = s ∧
    (mergeConfig { step := none, placeholder := some p }).step = 30 ∧
    (mergeConfig { step := some s, placeholder := some p }).placeholder = p ∧
    (mergeConfig { step := none, placeholder := none }) =
      { step := 30, placeholder := "00:00" } := by
  refine ⟨rfl, rfl, rfl, rfl⟩

/-- C7: the claim admits listener registration via the legacy revision
onChange as well; there, registering a second change listener overwrites
the stored callback, so the first listener is displaced and only the most
recent one is invoked on a recompute. -/
theorem onChange_displaces_counterexample :
    onChange (onChange (none : Option Nat) 1) 2 = some 2 ∧
    notifyLegacy (onChange (onChange (none : Option Nat) 1) 2) (fun k => k) = [2] ∧
    (1 : Nat) ∉ notifyLegacy (onChange (onChange (none : Option Nat) 1) 2) (fun k => k) := by
  decide

/-- C7 (amended): via the class revision `on` method, multiple change
listeners accumulate and a recompute invokes all of them in registration
order; via the legacy revision onChange, a second registration replaces
the first and only the most recent callback is invoked. -/
theorem listeners_amended {κ α : Type} (h : EventHandlers κ) (f g : κ) (invoke : κ → α) :
    (onEvent (onEvent h "change" f) "change" g).change = h.change ++ [f, g] ∧
    triggerEvent (onEvent (onEvent h "change" f) "change" g) "change" invoke
      = h.change.map invoke ++ [invoke f, invoke g] ∧
    onChange (onChange (none : Option κ) f) g = some g ∧
    notifyLegacy (onChange (onChange (none : Option κ) f) g) invoke = [invoke g] := by
  refine ⟨?_, ?_, rfl, rfl⟩ <;> simp [onEvent, triggerEvent]

/-- C8: the claim predicts that a non-parseable element value makes the
constructor display the placeholder and keep the state at 0:00; on the
value "abc" the code instead takes the parse branch (the guard is only
string truthiness), producing non-number hour and minute and never writing
the placeholder. -/
theorem init_unparseable_counterexample :
    initFromValue "abc"
      = { hour := none, minute := none, placeholderWritten := false } ∧
    initFromValue "abc"
      ≠ { hour := some 0, minute := some 0, placeholderWritten := true } := by
  decide

/-- C8 (amended): the placeholder branch runs exactly when the element
value is absent (the empty string, the only falsy string); then the
displayed value is set to the configured placeholder and the state stays
at 0:00.  Any non-empty value, parseable or not, is fed to the parse
branch and the placeholder is not written. -/
theorem init_value_amended (v : String) :
    initFromValue "" = { hour := some 0, minute := some 0, placeholderWritten := true } ∧
    (v ≠ "" → (initFromValue v).placeholderWritten = false) := by
  refine ⟨rfl, fun hv => ?_⟩
  unfold initFromValue
  rw [if_neg hv]

/-- C8 (amended) witness at the unparseable value "abc". -/
theorem init_value_amended_witness :
    initFromValue "" = { hour := some 0, minute := some 0, placeholderWritten := true } ∧
    ("abc" ≠ "") ∧ (initFromValue "abc").placeholderWritten = false :=
  ⟨(init_value_amended "abc").1, by decide, (init_value_amended "abc").2 (by decide)⟩

/-- Updating the entry for an absent key is the identity on the group. -/
lemma updateEntry_absent (g : Group) (id : String) (f : PickerState → PickerState)
    (h : mapGet g id = none) :
    updateEntry g id f = g := by
  induction g with
  | nil => rfl
  | cons hd tl ih =>
    obtain ⟨k, v⟩ := hd
    simp only [mapGet] at h
    simp only [updateEntry]
    by_cases hk : k = id
    · rw [if_pos hk] at h
      exact absurd h (by simp)
    · rw [if_neg hk] at h
      rw [if_neg hk, ih h]

/-- Updating the entry for one key leaves lookups of every other key
unchanged. -/
lemma mapGet_updateEntry_ne (g : Group) (id j : String) (f : PickerState → PickerState)
    (h : j ≠ id) :
    mapGet (updateEntry g id f) j = mapGet g j := by
  induction g with
  | nil => rfl
  | cons hd tl ih =>
    obtain ⟨k, v⟩ := hd
    simp only [updateEntry]
    by_cases hk : k = id
    · have hkj : ¬ k = j := fun hkj => h (hkj ▸ hk ▸ rfl)
      rw [if_pos hk]
      simp only [mapGet, if_neg hkj, ih]
    · rw [if_neg hk]
      by_cases hkj : k = j
      · simp only [mapGet, if_pos hkj]
      · simp only [mapGet, if_neg hkj, ih]

/-- The lookup of the updated key sees the updated state. -/
lemma mapGet_updateEntry_self (g : Group) (id : String) (f : PickerState → PickerState) :
    mapGet (updateEntry g id f) id = (mapGet g id).map f := by
  induction g with
  | nil => rfl
  | cons hd tl ih =>
    obtain ⟨k, v⟩ := hd
    simp only [updateEntry]
    by_cases hk : k = id
    · rw [if_pos hk]
      simp only [mapGet, if_pos hk]
      rfl
    · rw [if_neg hk]
      simp only [mapGet, if_neg hk, ih]

/-- C9: group forwarding.  With an identifier that is not a key of the
group, getValue returns undefined (none) and setValue and setValid are
silent no-ops (the optional chaining short-circuits, so no error is
raised and the group is unchanged).  With a known identifier, setValue
updates exactly the member keyed by it: every other key still looks up
its old state, and the updated key looks up its old state passed through
setValue. -/
theorem group_forwarding (g : Group) (id : String) (n : Int) (be bv : Bool) :
    (mapGet g id = none →
      groupGetValue g id = none ∧
      groupSetValue g id n = g ∧
      groupSetValid g id be bv = g) ∧
    (∀ j, j ≠ id → mapGet (groupSetValue g id n) j = mapGet g j) ∧
    mapGet (groupSetValue g id n) id = (mapGet g id).map (setValue n) := by
  refine ⟨fun h => ⟨?_, ?_, ?_⟩, fun j hj => ?_, ?_⟩
  · simp [groupGetValue, h]
  · exact updateEntry_absent g id (setValue n) h
  · exact updateEntry_absent g id (setValid be bv) h
  · exact mapGet_updateEntry_ne g id j (setValue n) hj
  · exact mapGet_updateEntry_self g id (setValue n)

/-- C9 witness on a two-member group: the unknown identifier "zz" is a
silent no-op for all three forwarded calls, and setValue 600 on "a"
changes only the member keyed "a" (the member keyed "b" is untouched). -/
theorem group_forwarding_witness :
    (groupGetValue [("a", sample), ("b", { sample with id := "q" })] "zz" = none ∧
     groupSetValue [("a", sample), ("b", { sample with id := "q" })] "zz" 600
       = [("a", sample), ("b", { sample with id := "q" })] ∧
     groupSetValid [("a", sample), ("b", { sample with id := "q" })] "zz" true true
       = [("a", sample), ("b", { sample with id := "q" })]) ∧
    mapGet (groupSetValue [("a", sample), ("b", { sample with id := "q" })] "a" 600) "b"
      = mapGet [("a", sample), ("b", { sample with id := "q" })] "b" ∧
    mapGet (groupSetValue [("a", sample), ("b", { sample with id := "q" })] "a" 600) "a"
      = some (setValue 600 sample) := by
  have h1 := group_forwarding [("a", sample), ("b", { sample with id := "q" })] "zz" 600 true true
  have h2 := group_forwarding [("a", sample), ("b", { sample with id := "q" })] "a" 600 true true
  refine ⟨h1.1 (by decide), h2.2.1 "b" (by decide), ?_⟩
  rw [h2.2.2]; decide

/-- C10: the claim asserts that for every negative n, setValue n leaves a
negative minute and a recomputed totalMinutes different from n; at
n = -60 (a negative multiple of 60) the JS remainder is 0, so minute is 0
and totalMinutes = (-1)*60 + 0 = -60 = n. -/
theorem setValue_negative_counterexample :
    (setValue (-60) sample).minute = 0 ∧
    ¬ ((setValue (-60) sample).minute < 0) ∧
    (setValue (-60) sample).totalMinutes = -60 := by
  decide

/-- C10 (amended): setValue is total on the integers (no error for any
argument).  For n ≥ 0 it leaves minute = n mod 60 in [0,59],
hour = floor(n/60) (exceeding 23 exactly when n ≥ 1440), and
totalMinutes = n.  For negative n not a multiple of 60, the JS remainder
makes minute negative and the recomputed totalMinutes differs from n;
for negative multiples of 60, minute is 0 and totalMinutes equals n. -/
theorem setValue_total_behavior_amended (st : PickerState) (n : Int) :
    (0 ≤ n →
      (setValue n st).hour = n / 60 ∧
      (setValue n st).minute = n % 60 ∧
      0 ≤ (setValue n st).minute ∧ (setValue n st).minute ≤ 59 ∧
      (setValue n st).totalMinutes = n) ∧
    (1440 ≤ n → 23 < (setValue n st).hour) ∧
    (n < 0 → ¬ (60 ∣ n) →
      (setValue n st).minute < 0 ∧ (setValue n st).totalMinutes ≠ n) ∧
    (n < 0 → (60 ∣ n) →
      (setValue n st).minute = 0 ∧ (setValue n st).totalMinutes = n) := by
  simp only [setValue, handleTimeUpdate, jsFloorDiv, jsRem]
  rw [Int.fdiv_eq_ediv n (by norm_num : (0:Int) ≤ 60)]
  refine ⟨fun h0 => ?_, fun h14 => ?_, fun hneg hnd => ?_, fun hneg hd => ?_⟩
  · rw [if_pos h0]
    refine ⟨rfl, rfl, ?_, ?_, ?_⟩ <;> omega
  · omega
  · rw [if_neg (by omega : ¬ (0:Int) ≤ n)]
    refine ⟨?_, ?_⟩ <;> dsimp only <;> omega
  · rw [if_neg (by omega : ¬ (0:Int) ≤ n)]
    refine ⟨?_, ?_⟩ <;> dsimp only <;> omega

/-- C10 (amended) witness: setValue 1500 (hour 25, minute 0,
totalMinutes 1500) and setValue (-90) (minute -30, totalMinutes -150). -/
theorem setValue_total_behavior_amended_witness :
    ((0:Int) ≤ 1500 ∧
      (setValue 1500 sample).minute = 0 ∧
      (setValue 1500 sample).totalMinutes = 1500 ∧
      23 < (setValue 1500 sample).hour) ∧
    ((-90:Int) < 0 ∧ ¬ ((60:Int) ∣ -90) ∧
      (setValue (-90) sample).minute < 0 ∧
      (setValue (-90) sample).totalMinutes ≠ -90) := by
  have h := setValue_total_behavior_amended sample 1500
  have h2 := setValue_total_behavior_amended sample (-90)
  obtain ⟨e1, e2, e3, e4, e5⟩ := h.1 (by decide)
  obtain ⟨f1, f2⟩ := h2.2.2.1 (by decide) (by decide)
  refine ⟨⟨by decide, ?_, e5, h.2.1 (by decide)⟩, ⟨by decide, by decide, f1, f2⟩⟩
  rw [e2]; decide

end TimePick
